import Mathlib

/-!
Shallow embedding of the eye-disease GraphQL resolver module
(src/todo/index.js) and proofs about it.

The module keeps a mutable in-memory array of records plus a counter
`nextId`, and exposes resolvers `records`, `record`, `addRecord`,
`updateRecord`, `deleteRecord`.  We model the mutable state explicitly
as a `Store` value threaded through each resolver; a resolver that can
`throw` returns the (possibly partially mutated) store together with an
`Except String` result, mirroring the fact that a JS exception leaves
the global state in whatever condition it was at the throw site.

JavaScript dynamic values that reach the resolvers (GraphQL arguments
may arrive as strings, numbers, `null`, or be omitted = `undefined`)
are modelled by `JSVal`.  The JS runtime `Date` API (`Date.parse`,
`new Date(v).toISOString()`, `new Date().toISOString()`) is external to
the repository, so it is abstracted as a parameter `JsDateEnv`: a
predicate saying which values parse, a normalisation function, and the
ISO string for the current instant.
-/

/-- A JavaScript value as it may reach a resolver argument:
`undefined` (omitted), `null`, a boolean, an (integral) number, or a
string. -/
inductive JSVal where
  | undefined
  | null
  | bool (b : Bool)
  | num (n : Int)
  | str (s : String)
deriving Repr, DecidableEq

/-- JS truthiness: `undefined`, `null`, `false`, `0` and `""` are falsy. -/
def JSVal.truthy : JSVal → Bool
  | .undefined => false
  | .null => false
  | .bool b => b
  | .num n => n != 0
  | .str s => s != ""

/-- Whether `typeof v === 'string'`. -/
def JSVal.isStr : JSVal → Bool
  | .str _ => true
  | _ => false

/-- JS `String(v)` coercion, as used in `r.id === String(id)` and in the
template literals of the resolver error messages. -/
def jsToString : JSVal → String
  | .undefined => "undefined"
  | .null => "null"
  | .bool b => if b then "true" else "false"
  | .num n => toString n
  | .str s => s

/-- A character the JS `String.prototype.trim` removes: the ASCII
whitespace characters plus NBSP and the BOM (the common WhiteSpace and
LineTerminator code points). -/
def isJsSpace (c : Char) : Bool :=
  c == ' ' || c == '\t' || c == '\n' || c == '\r' ||
    c.val == 11 || c.val == 12 || c.val == 0xA0 || c.val == 0xFEFF

/-- JS `jsTrim s()`: remove leading and trailing whitespace. -/
def jsTrim (s : String) : String :=
  ⟨((s.data.dropWhile isJsSpace).reverse.dropWhile isJsSpace).reverse⟩

/-- One stored record: `id`, `name`, `disease`, `dateAdded` string fields,
as in the objects of `recordsData`. -/
structure Record where
  id : String
  name : String
  disease : String
  dateAdded : String
deriving Repr, DecidableEq

/-- The module-level mutable state: the `recordsData` array and the
`nextId` counter. -/
structure Store where
  recordsData : List Record
  nextId : Nat
deriving Repr, DecidableEq

/-- The result object of `deleteRecord`. -/
structure DeleteResult where
  success : Bool
  message : String
  removed : Option Record
deriving Repr, DecidableEq

/-- The `DISEASES` array. -/
def DISEASES : List String :=
  ["Bulging_Eyes", "Cataracts", "Crossed_Eyes", "Glaucoma", "Uveitis"]

/-- The error message thrown for an invalid disease:
`Disease must be one of: ` followed by `DISEASES.join(', ')`. -/
def diseaseErrMsg : String :=
  "Disease must be one of: " ++ String.intercalate ", " DISEASES

/-- Abstraction of the JS runtime `Date` API used by the resolvers
(external to the repository):
`dateParseOk v` holds when `Date.parse(v)` is not `NaN`;
`newDateISO v` is `new Date(v).toISOString()` (only consulted on values
for which `dateParseOk` holds); `nowISO` is `new Date().toISOString()`
at the instant of the call. -/
structure JsDateEnv where
  dateParseOk : JSVal → Bool
  newDateISO : JSVal → String
  nowISO : String

/-- The `isValidDate` helper: falsy values are invalid, otherwise the
value must parse. -/
def isValidDate (env : JsDateEnv) (v : JSVal) : Bool :=
  v.truthy && env.dateParseOk v

/-- The seed dataset: 20 fixed records, ids `"1"` .. `"20"`. -/
def seedRecords : List Record :=
  [ ⟨"1",  "Aarav",  "Cataracts",    "2025-01-05T09:10:00.000Z"⟩,
    ⟨"2",  "Ananya", "Glaucoma",     "2025-01-06T11:22:00.000Z"⟩,
    ⟨"3",  "Rahul",  "Uveitis",      "2025-01-07T14:05:00.000Z"⟩,
    ⟨"4",  "Sneha",  "Crossed_Eyes", "2025-01-08T08:45:00.000Z"⟩,
    ⟨"5",  "Neha",   "Bulging_Eyes", "2025-01-09T12:30:00.000Z"⟩,
    ⟨"6",  "Vikram", "Cataracts",    "2025-01-10T16:40:00.000Z"⟩,
    ⟨"7",  "Kiran",  "Glaucoma",     "2025-01-11T10:15:00.000Z"⟩,
    ⟨"8",  "Isha",   "Uveitis",      "2025-01-12T07:55:00.000Z"⟩,
    ⟨"9",  "Rohan",  "Crossed_Eyes", "2025-01-13T18:05:00.000Z"⟩,
    ⟨"10", "Priya",  "Bulging_Eyes", "2025-01-14T09:00:00.000Z"⟩,
    ⟨"11", "Aditi",  "Glaucoma",     "2025-01-15T13:25:00.000Z"⟩,
    ⟨"12", "Sahil",  "Cataracts",    "2025-01-16T17:45:00.000Z"⟩,
    ⟨"13", "Kavya",  "Uveitis",      "2025-01-17T06:35:00.000Z"⟩,
    ⟨"14", "Dev",    "Crossed_Eyes", "2025-01-18T20:10:00.000Z"⟩,
    ⟨"15", "Meera",  "Bulging_Eyes", "2025-01-19T08:20:00.000Z"⟩,
    ⟨"16", "Arjun",  "Glaucoma",     "2025-01-20T15:55:00.000Z"⟩,
    ⟨"17", "Diya",   "Cataracts",    "2025-01-21T11:05:00.000Z"⟩,
    ⟨"18", "Nikhil", "Uveitis",      "2025-01-22T12:45:00.000Z"⟩,
    ⟨"19", "Tanvi",  "Crossed_Eyes", "2025-01-23T07:15:00.000Z"⟩,
    ⟨"20", "Ishan",  "Bulging_Eyes", "2025-01-24T19:30:00.000Z"⟩ ]

/-- The state at process start: the seed dataset and `nextId = 21`. -/
def initialStore : Store := ⟨seedRecords, 21⟩

/-- Resolver `records`: returns the whole collection. -/
def recordsQ (st : Store) : List Record :=
  st.recordsData

/-- Resolver `record`: `recordsData.find(r => r.id === String(id)) || null`. -/
def recordQ (st : Store) (id : JSVal) : Option Record :=
  st.recordsData.find? (fun r => r.id == jsToString id)

/-- The `const date = ...` line of `addRecord`:
`dateAdded && isValidDate(dateAdded) ? new Date(dateAdded).toISOString()
: nowISO()`. -/
def addDate (env : JsDateEnv) (dateAdded : JSVal) : String :=
  if dateAdded.truthy && isValidDate env dateAdded then env.newDateISO dateAdded
  else env.nowISO

/-- Resolver `addRecord`.  Validates the name (`!name || !name.trim()`)
and the disease (`DISEASES.includes(disease)`), chooses the date, then
pushes `{id: String(nextId++), name: name.trim(), disease, dateAdded:
date}`.  A truthy non-string name would make `name.trim()` raise a
`TypeError` in JS; that throw is modelled as an error value too. -/
def addRecord (env : JsDateEnv) (st : Store) (name disease dateAdded : JSVal) :
    Store × Except String Record :=
  match name with
  | .str s =>
    if jsTrim s == "" then
      (st, .error "Name is required.")
    else
      match disease with
      | .str d =>
        if DISEASES.contains d then
          let newRecord : Record := ⟨toString st.nextId, jsTrim s, d, addDate env dateAdded⟩
          (⟨st.recordsData ++ [newRecord], st.nextId + 1⟩, .ok newRecord)
        else (st, .error diseaseErrMsg)
      | _ => (st, .error diseaseErrMsg)
  | _ =>
    if name.truthy then (st, .error "TypeError: name.trim is not a function")
    else (st, .error "Name is required.")

/-- The first `if` block of `updateRecord`: when `typeof name ===
'string'`, throw on an empty trim, else write the trimmed name. -/
def updName (name : JSVal) (r : Record) : Record × Option String :=
  match name with
  | .str s =>
    if jsTrim s == "" then (r, some "Name cannot be empty.")
    else ({ r with name := jsTrim s }, none)
  | _ => (r, none)

/-- The second `if` block of `updateRecord`: when `typeof disease ===
'string'`, throw unless it is in `DISEASES`, else write it. -/
def updDisease (disease : JSVal) (r : Record) : Record × Option String :=
  match disease with
  | .str d =>
    if DISEASES.contains d then ({ r with disease := d }, none)
    else (r, some diseaseErrMsg)
  | _ => (r, none)

/-- The third `if` block of `updateRecord`: when `typeof dateAdded ===
'string'`, throw unless `isValidDate`, else write the normalised date. -/
def updDate (env : JsDateEnv) (dateAdded : JSVal) (r : Record) : Record × Option String :=
  match dateAdded with
  | .str t =>
    if isValidDate env (.str t) then
      ({ r with dateAdded := env.newDateISO (.str t) }, none)
    else (r, some "dateAdded must be a valid ISO date/time.")
  | _ => (r, none)

/-- Sequencing of in-place update blocks: once a throw happened, later
blocks do not run and the record keeps its state at the throw site. -/
def andThen (step : Record → Record × Option String) :
    Record × Option String → Record × Option String
  | (r, some e) => (r, some e)
  | (r, none) => step r

/-- The body of `updateRecord` on the record found for the id: the three
blocks applied in source order (name, then disease, then dateAdded).
Returns the record as it stands when the function returns or throws,
together with the thrown message if any. -/
def updSteps (env : JsDateEnv) (r : Record) (name disease dateAdded : JSVal) :
    Record × Option String :=
  andThen (updDate env dateAdded) (andThen (updDisease disease) (updName name r))

/-- Replace the first record whose id is `idStr` by the outcome of
`upd` on it; `none` when no record matches.  Mirrors
`recordsData.find(r => r.id === String(id))` followed by in-place
mutation of the found object. -/
def updateList (idStr : String) (upd : Record → Record × Option String) :
    List Record → Option (List Record × Record × Option String)
  | [] => none
  | r :: rs =>
    if r.id == idStr then
      let (r1, err) := upd r
      some (r1 :: rs, r1, err)
    else
      match updateList idStr upd rs with
      | none => none
      | some (rs1, rr, err) => some (r :: rs1, rr, err)

/-- Resolver `updateRecord`.  Finds the record (`r.id === String(id)`),
throws `Record with id ... not found.` when absent, otherwise applies
the per-field updates in place — so a throw at a later field keeps the
earlier writes. -/
def updateRecord (env : JsDateEnv) (st : Store) (id name disease dateAdded : JSVal) :
    Store × Except String Record :=
  match updateList (jsToString id) (fun r => updSteps env r name disease dateAdded)
      st.recordsData with
  | none => (st, .error ("Record with id " ++ jsToString id ++ " not found."))
  | some (rs1, r1, err) =>
    (⟨rs1, st.nextId⟩,
      match err with
      | some e => .error e
      | none => .ok r1)

/-- Remove the first record whose id is `idStr`; `none` when absent.
Mirrors `findIndex` plus `splice(idx, 1)`. -/
def removeFirst (idStr : String) : List Record → Option (Record × List Record)
  | [] => none
  | r :: rs =>
    if r.id == idStr then some (r, rs)
    else
      match removeFirst idStr rs with
      | none => none
      | some (rem, rest) => some (rem, r :: rest)

/-- Resolver `deleteRecord`: not-found is reported via
`success = false`, never via a throw. -/
def deleteRecord (st : Store) (id : JSVal) : Store × DeleteResult :=
  match removeFirst (jsToString id) st.recordsData with
  | none =>
    (st, ⟨false, "Record with id " ++ jsToString id ++ " not found.", none⟩)
  | some (rem, rest) =>
    (⟨rest, st.nextId⟩,
      ⟨true, "Record " ++ jsToString id ++ " deleted successfully.", some rem⟩)

/-- One client operation against the API.  The mutating operations carry
the `JsDateEnv` in force at the instant of the call (the clock moves
between requests). -/
inductive Op where
  | recordsOp
  | recordOp (id : JSVal)
  | addOp (env : JsDateEnv) (name disease dateAdded : JSVal)
  | updateOp (env : JsDateEnv) (id name disease dateAdded : JSVal)
  | deleteOp (id : JSVal)

/-- The store after one operation. -/
def stepStore (st : Store) : Op → Store
  | .recordsOp => st
  | .recordOp _ => st
  | .addOp env n d da => (addRecord env st n d da).1
  | .updateOp env i n d da => (updateRecord env st i n d da).1
  | .deleteOp i => (deleteRecord st i).1

/-- The store after a sequence of operations. -/
def runOps (st : Store) : List Op → Store
  | [] => st
  | op :: ops => runOps (stepStore st op) ops

/-- The numeric ids consumed by the successful `addRecord` calls of a
run, in call order (`String(nextId++)` uses the counter value before
the increment). -/
def assignedNums (st : Store) : List Op → List Nat
  | [] => []
  | op :: ops =>
    match op with
    | .addOp env n d da =>
      match (addRecord env st n d da).2 with
      | .ok _ => st.nextId :: assignedNums (stepStore st op) ops
      | .error _ => assignedNums (stepStore st op) ops
    | _ => assignedNums (stepStore st op) ops

/-- The id strings of the records returned by the successful
`addRecord` calls of a run, in call order. -/
def assignedIds (st : Store) : List Op → List String
  | [] => []
  | op :: ops =>
    match op with
    | .addOp env n d da =>
      match (addRecord env st n d da).2 with
      | .ok r => r.id :: assignedIds (stepStore st op) ops
      | .error _ => assignedIds (stepStore st op) ops
    | _ => assignedIds (stepStore st op) ops

/-- A concrete instantiation of the JS `Date` API used to evaluate the
theorems on closed inputs: exactly one string parses. -/
def testEnv : JsDateEnv where
  dateParseOk := fun v =>
    match v with
    | .str s => s == "2025-02-02T00:00:00.000Z"
    | _ => false
  newDateISO := fun _ => "2025-02-02T00:00:00.000Z"
  nowISO := "2025-03-03T00:00:00.000Z"

/-! ### Lemmas about the update blocks -/

theorem andThen_some (step : Record → Record × Option String) (r : Record) (e : String) :
    andThen step (r, some e) = (r, some e) := rfl

theorem andThen_none (step : Record → Record × Option String) (r : Record) :
    andThen step (r, none) = step r := rfl

theorem updName_id (n : JSVal) (r : Record) : ((updName n r).1).id = r.id := by
  cases n
  case str s => simp only [updName]; split <;> rfl
  all_goals rfl

theorem updDisease_id (d : JSVal) (r : Record) : ((updDisease d r).1).id = r.id := by
  cases d
  case str s => simp only [updDisease]; split <;> rfl
  all_goals rfl

theorem updDate_id (env : JsDateEnv) (da : JSVal) (r : Record) :
    ((updDate env da r).1).id = r.id := by
  cases da
  case str s => simp only [updDate]; split <;> rfl
  all_goals rfl

theorem updSteps_id (env : JsDateEnv) (r : Record) (n d da : JSVal) :
    ((updSteps env r n d da).1).id = r.id := by
  unfold updSteps
  rcases hn : updName n r with ⟨r1, e1⟩
  have h1 : r1.id = r.id := by
    have := updName_id n r
    rw [hn] at this
    exact this
  cases e1 with
  | some e => simpa [andThen] using h1
  | none =>
    rw [andThen_none]
    rcases hd : updDisease d r1 with ⟨r2, e2⟩
    have h2 : r2.id = r1.id := by
      have := updDisease_id d r1
      rw [hd] at this
      exact this
    cases e2 with
    | some e => simpa [andThen] using h2.trans h1
    | none =>
      rw [andThen_none]
      have h3 := updDate_id env da r2
      rw [h3, h2, h1]

theorem updName_nonstr (n : JSVal) (r : Record) (h : n.isStr = false) :
    updName n r = (r, none) := by
  cases n <;> simp [JSVal.isStr] at h ⊢ <;> rfl

theorem updDisease_nonstr (d : JSVal) (r : Record) (h : d.isStr = false) :
    updDisease d r = (r, none) := by
  cases d <;> simp [JSVal.isStr] at h ⊢ <;> rfl

theorem updDate_nonstr (env : JsDateEnv) (da : JSVal) (r : Record) (h : da.isStr = false) :
    updDate env da r = (r, none) := by
  cases da <;> simp [JSVal.isStr] at h ⊢ <;> rfl

theorem updName_err_iff (n : JSVal) (r : Record) :
    (updName n r).2 ≠ none ↔ ∃ s, n = JSVal.str s ∧ jsTrim s = "" := by
  cases n
  case str s =>
    simp only [updName]
    by_cases h : jsTrim s = ""
    · simp [h]
    · simp [h]
  all_goals simp [updName]

theorem updDisease_err_iff (d : JSVal) (r : Record) :
    (updDisease d r).2 ≠ none ↔ ∃ dd, d = JSVal.str dd ∧ dd ∉ DISEASES := by
  cases d
  case str dd =>
    simp only [updDisease]
    by_cases h : dd ∈ DISEASES
    · simp [h, List.elem_iff]
    · simp [h, List.elem_iff]
  all_goals simp [updDisease]

theorem updDate_err_iff (env : JsDateEnv) (da : JSVal) (r : Record) :
    (updDate env da r).2 ≠ none ↔
      ∃ t, da = JSVal.str t ∧ isValidDate env (.str t) = false := by
  cases da
  case str t =>
    simp only [updDate]
    by_cases h : isValidDate env (.str t) = true
    · simp [h]
    · simp only [Bool.not_eq_true] at h
      simp [h]
  all_goals simp [updDate]

theorem updSteps_err_iff (env : JsDateEnv) (r : Record) (n d da : JSVal) :
    (updSteps env r n d da).2 ≠ none ↔
      (∃ s, n = JSVal.str s ∧ jsTrim s = "") ∨
      (∃ dd, d = JSVal.str dd ∧ dd ∉ DISEASES) ∨
      (∃ t, da = JSVal.str t ∧ isValidDate env (.str t) = false) := by
  unfold updSteps
  rcases hn : updName n r with ⟨r1, e1⟩
  have hnameIff := updName_err_iff n r
  rw [hn] at hnameIff
  cases e1 with
  | some e =>
    simp only [andThen]
    simp only [ne_eq, reduceCtorEq, not_false_iff, true_iff] at hnameIff ⊢
    exact Or.inl hnameIff
  | none =>
    rw [andThen_none]
    simp only [ne_eq, not_true_eq_false, false_iff, not_exists, not_and] at hnameIff
    rcases hd : updDisease d r1 with ⟨r2, e2⟩
    have hdisIff := updDisease_err_iff d r1
    rw [hd] at hdisIff
    cases e2 with
    | some e =>
      simp only [andThen]
      simp only [ne_eq, reduceCtorEq, not_false_iff, true_iff] at hdisIff ⊢
      exact Or.inr (Or.inl hdisIff)
    | none =>
      rw [andThen_none]
      simp only [ne_eq, not_true_eq_false, false_iff, not_exists, not_and] at hdisIff
      have hdateIff := updDate_err_iff env da r2
      constructor
      · intro h
        exact Or.inr (Or.inr (hdateIff.mp h))
      · rintro (⟨s, hs, he⟩ | ⟨dd, hdd, he⟩ | ⟨t, ht, he⟩)
        · exact absurd he (hnameIff s hs)
        · exact absurd he (hdisIff dd hdd)
        · exact hdateIff.mpr ⟨t, ht, he⟩

theorem updSteps_all_omitted (env : JsDateEnv) (r : Record) :
    updSteps env r .undefined .undefined .undefined = (r, none) := rfl

theorem updSteps_name_only (env : JsDateEnv) (r : Record) (s : String) (h : jsTrim s ≠ "") :
    updSteps env r (.str s) .undefined .undefined = ({ r with name := jsTrim s }, none) := by
  simp [updSteps, updName, h, andThen, updDisease, updDate]

theorem updSteps_name_bad (env : JsDateEnv) (r : Record) (s : String) (d da : JSVal)
    (h : jsTrim s = "") :
    updSteps env r (.str s) d da = (r, some "Name cannot be empty.") := by
  simp [updSteps, updName, h, andThen]

theorem updSteps_name_disease_bad (env : JsDateEnv) (r : Record) (s dd : String) (da : JSVal)
    (hs : jsTrim s ≠ "") (hd : dd ∉ DISEASES) :
    updSteps env r (.str s) (.str dd) da =
      ({ r with name := jsTrim s }, some diseaseErrMsg) := by
  have hc : DISEASES.contains dd = false := by
    simp [List.elem_iff, hd]
  simp [updSteps, updName, hs, andThen, updDisease, hc, hd]

/-! ### Lemmas about updateList and removeFirst -/

theorem updateList_nil (idStr : String) (upd : Record → Record × Option String) :
    updateList idStr upd [] = none := rfl

theorem updateList_cons (idStr : String) (upd : Record → Record × Option String)
    (r : Record) (rs : List Record) :
    updateList idStr upd (r :: rs) =
      if r.id == idStr then some ((upd r).1 :: rs, (upd r).1, (upd r).2)
      else
        match updateList idStr upd rs with
        | none => none
        | some (rs1, rr, err) => some (r :: rs1, rr, err) := rfl

theorem updateList_none_iff (idStr : String) (upd : Record → Record × Option String)
    (l : List Record) :
    updateList idStr upd l = none ↔ ∀ r ∈ l, r.id ≠ idStr := by
  induction l with
  | nil => simp [updateList_nil]
  | cons r rs ih =>
    rw [updateList_cons]
    by_cases h : r.id = idStr
    · simp [h]
    · have hb : (r.id == idStr) = false := by simp [h]
      rw [hb]
      simp only [Bool.false_eq_true, if_false]
      have hmatch :
          (match updateList idStr upd rs with
            | none => none
            | some (rs1, rr, err) => some (r :: rs1, rr, err)) = none ↔
            updateList idStr upd rs = none := by
        cases hrec : updateList idStr upd rs with
        | none => simp
        | some x =>
          rcases x with ⟨rs1, rr, err⟩
          simp
      rw [hmatch, ih]
      simp [List.forall_mem_cons, h]

theorem updateList_found (idStr : String) (upd : Record → Record × Option String)
    (l1 l2 : List Record) (r : Record)
    (h1 : ∀ r' ∈ l1, r'.id ≠ idStr) (hr : r.id = idStr) :
    updateList idStr upd (l1 ++ r :: l2) =
      some (l1 ++ (upd r).1 :: l2, (upd r).1, (upd r).2) := by
  induction l1 with
  | nil =>
    simp only [List.nil_append, updateList_cons]
    simp [hr]
  | cons a as ih =>
    have ha : (a.id == idStr) = false := by
      simp [h1 a (by simp)]
    simp only [List.cons_append, updateList_cons, ha, Bool.false_eq_true, if_false]
    rw [ih (fun r' hr' => h1 r' (by simp [hr']))]

theorem updateList_congr (idStr : String) (upd upd' : Record → Record × Option String)
    (h : ∀ r, upd r = upd' r) (l : List Record) :
    updateList idStr upd l = updateList idStr upd' l := by
  induction l with
  | nil => rfl
  | cons r rs ih => rw [updateList_cons, updateList_cons, h r, ih]

theorem removeFirst_nil (idStr : String) : removeFirst idStr [] = none := rfl

theorem removeFirst_cons (idStr : String) (r : Record) (rs : List Record) :
    removeFirst idStr (r :: rs) =
      if r.id == idStr then some (r, rs)
      else
        match removeFirst idStr rs with
        | none => none
        | some (rem, rest) => some (rem, r :: rest) := rfl

theorem removeFirst_none_iff (idStr : String) (l : List Record) :
    removeFirst idStr l = none ↔ ∀ r ∈ l, r.id ≠ idStr := by
  induction l with
  | nil => simp [removeFirst_nil]
  | cons r rs ih =>
    rw [removeFirst_cons]
    by_cases h : r.id = idStr
    · simp [h]
    · have hb : (r.id == idStr) = false := by simp [h]
      rw [hb]
      simp only [Bool.false_eq_true, if_false]
      have hmatch :
          (match removeFirst idStr rs with
            | none => none
            | some (rem, rest) => some (rem, r :: rest)) = none ↔
            removeFirst idStr rs = none := by
        cases hrec : removeFirst idStr rs with
        | none => simp
        | some x =>
          rcases x with ⟨rem, rest⟩
          simp
      rw [hmatch, ih]
      simp [List.forall_mem_cons, h]

theorem removeFirst_found (idStr : String) (l1 l2 : List Record) (r : Record)
    (h1 : ∀ r' ∈ l1, r'.id ≠ idStr) (hr : r.id = idStr) :
    removeFirst idStr (l1 ++ r :: l2) = some (r, l1 ++ l2) := by
  induction l1 with
  | nil =>
    simp only [List.nil_append, removeFirst_cons]
    simp [hr]
  | cons a as ih =>
    have ha : (a.id == idStr) = false := by
      simp [h1 a (by simp)]
    simp only [List.cons_append, removeFirst_cons, ha, Bool.false_eq_true, if_false]
    rw [ih (fun r' hr' => h1 r' (by simp [hr']))]

/-! ### Lemmas about the resolvers -/

theorem addRecord_ok (env : JsDateEnv) (st : Store) (s d : String) (da : JSVal)
    (hs : jsTrim s ≠ "") (hd : d ∈ DISEASES) :
    addRecord env st (.str s) (.str d) da =
      (⟨st.recordsData ++ [⟨toString st.nextId, jsTrim s, d, addDate env da⟩], st.nextId + 1⟩,
       .ok ⟨toString st.nextId, jsTrim s, d, addDate env da⟩) := by
  have hc : DISEASES.contains d = true := by simp [List.elem_iff, hd]
  simp [addRecord, hs, hc, hd]

theorem addRecord_trichotomy (env : JsDateEnv) (st : Store) (n d da : JSVal) :
    (∃ e, addRecord env st n d da = (st, .error e)) ∨
    (∃ s dd, n = JSVal.str s ∧ d = JSVal.str dd ∧ jsTrim s ≠ "" ∧ dd ∈ DISEASES ∧
      addRecord env st n d da =
        (⟨st.recordsData ++ [⟨toString st.nextId, jsTrim s, dd, addDate env da⟩], st.nextId + 1⟩,
         .ok ⟨toString st.nextId, jsTrim s, dd, addDate env da⟩)) := by
  cases n with
  | str s =>
    by_cases hs : jsTrim s = ""
    · exact Or.inl ⟨"Name is required.", by simp [addRecord, hs]⟩
    · cases d with
      | str dd =>
        by_cases hd : dd ∈ DISEASES
        · exact Or.inr ⟨s, dd, rfl, rfl, hs, hd, addRecord_ok env st s dd da hs hd⟩
        · have hc : DISEASES.contains dd = false := by simp [List.elem_iff, hd]
          exact Or.inl ⟨diseaseErrMsg, by simp [addRecord, hs, hc, hd]⟩
      | undefined => exact Or.inl ⟨diseaseErrMsg, by simp [addRecord, hs]⟩
      | null => exact Or.inl ⟨diseaseErrMsg, by simp [addRecord, hs]⟩
      | bool b => exact Or.inl ⟨diseaseErrMsg, by simp [addRecord, hs]⟩
      | num m => exact Or.inl ⟨diseaseErrMsg, by simp [addRecord, hs]⟩
  | undefined => exact Or.inl ⟨"Name is required.", by simp [addRecord, JSVal.truthy]⟩
  | null => exact Or.inl ⟨"Name is required.", by simp [addRecord, JSVal.truthy]⟩
  | bool b =>
    cases b with
    | true => exact Or.inl ⟨"TypeError: name.trim is not a function", by simp [addRecord, JSVal.truthy]⟩
    | false => exact Or.inl ⟨"Name is required.", by simp [addRecord, JSVal.truthy]⟩
  | num m =>
    by_cases hm : m = 0
    · exact Or.inl ⟨"Name is required.", by simp [addRecord, JSVal.truthy, hm]⟩
    · exact Or.inl ⟨"TypeError: name.trim is not a function", by simp [addRecord, JSVal.truthy, hm]⟩

theorem addRecord_error_store (env : JsDateEnv) (st : Store) (n d da : JSVal) (e : String)
    (h : (addRecord env st n d da).2 = .error e) : (addRecord env st n d da).1 = st := by
  rcases addRecord_trichotomy env st n d da with ⟨e1, heq⟩ | ⟨s, dd, _, _, _, _, heq⟩
  · rw [heq]
  · rw [heq] at h
    exact absurd h (by simp)

theorem addRecord_ok_shape (env : JsDateEnv) (st : Store) (n d da : JSVal) (r : Record)
    (h : (addRecord env st n d da).2 = .ok r) :
    r.id = toString st.nextId ∧
    (addRecord env st n d da).1 = ⟨st.recordsData ++ [r], st.nextId + 1⟩ := by
  rcases addRecord_trichotomy env st n d da with ⟨e1, heq⟩ | ⟨s, dd, _, _, _, _, heq⟩
  · rw [heq] at h
    exact absurd h (by simp)
  · rw [heq] at h ⊢
    simp only [Except.ok.injEq] at h
    subst h
    exact ⟨rfl, rfl⟩

theorem updateRecord_nextId (env : JsDateEnv) (st : Store) (id n d da : JSVal) :
    ((updateRecord env st id n d da).1).nextId = st.nextId := by
  unfold updateRecord
  cases h : updateList (jsToString id) (fun r => updSteps env r n d da) st.recordsData with
  | none => rfl
  | some x =>
    rcases x with ⟨rs1, r1, err⟩
    rfl

theorem deleteRecord_nextId (st : Store) (id : JSVal) :
    ((deleteRecord st id).1).nextId = st.nextId := by
  unfold deleteRecord
  cases h : removeFirst (jsToString id) st.recordsData with
  | none => rfl
  | some x =>
    rcases x with ⟨rem, rest⟩
    rfl

theorem stepStore_nextId_nonadd (st : Store) (op : Op)
    (h : ∀ env n d da, op ≠ .addOp env n d da) :
    (stepStore st op).nextId = st.nextId := by
  cases op with
  | recordsOp => rfl
  | recordOp i => rfl
  | addOp env n d da => exact absurd rfl (h env n d da)
  | updateOp env i n d da => exact updateRecord_nextId env st i n d da
  | deleteOp i => exact deleteRecord_nextId st i

/-! ### The id counter over operation sequences -/

theorem assignedNums_sorted_bound (ops : List Op) : ∀ st : Store,
    List.Pairwise (· < ·) (assignedNums st ops) ∧
    ∀ k ∈ assignedNums st ops, st.nextId ≤ k := by
  induction ops with
  | nil =>
    intro st
    simp [assignedNums]
  | cons op ops ih =>
    intro st
    cases op with
    | recordsOp =>
      have h := ih st
      simpa [assignedNums, stepStore] using h
    | recordOp i =>
      have h := ih st
      simpa [assignedNums, stepStore] using h
    | updateOp env i n d da =>
      have h := ih (stepStore st (.updateOp env i n d da))
      have hn : (stepStore st (.updateOp env i n d da)).nextId = st.nextId :=
        updateRecord_nextId env st i n d da
      refine ⟨by simpa [assignedNums] using h.1, ?_⟩
      intro k hk
      have hb := h.2 k (by simpa [assignedNums] using hk)
      rw [hn] at hb
      exact hb
    | deleteOp i =>
      have h := ih (stepStore st (.deleteOp i))
      have hn : (stepStore st (.deleteOp i)).nextId = st.nextId :=
        deleteRecord_nextId st i
      refine ⟨by simpa [assignedNums] using h.1, ?_⟩
      intro k hk
      have hb := h.2 k (by simpa [assignedNums] using hk)
      rw [hn] at hb
      exact hb
    | addOp env n d da =>
      cases hres : (addRecord env st n d da).2 with
      | error e =>
        have hst : (addRecord env st n d da).1 = st :=
          addRecord_error_store env st n d da e hres
        have hstep : stepStore st (.addOp env n d da) = st := hst
        have h := ih st
        have hred : assignedNums st (.addOp env n d da :: ops) = assignedNums st ops := by
          simp [assignedNums, hres, hstep]
        rw [hred]
        exact h
      | ok r =>
        have hshape := addRecord_ok_shape env st n d da r hres
        have hstep : stepStore st (.addOp env n d da) =
            ⟨st.recordsData ++ [r], st.nextId + 1⟩ := hshape.2
        have h := ih (stepStore st (.addOp env n d da))
        have hred : assignedNums st (.addOp env n d da :: ops) =
            st.nextId :: assignedNums (stepStore st (.addOp env n d da)) ops := by
          simp [assignedNums, hres]
        rw [hred]
        have hbound : ∀ k ∈ assignedNums (stepStore st (.addOp env n d da)) ops,
            st.nextId + 1 ≤ k := by
          intro k hk
          have := h.2 k hk
          rw [hstep] at this
          exact this
        constructor
        · exact List.pairwise_cons.mpr
            ⟨fun k hk => Nat.lt_of_succ_le (hbound k hk), h.1⟩
        · intro k hk
          rcases List.mem_cons.mp hk with rfl | hmem
          · exact Nat.le_refl _
          · exact Nat.le_of_succ_le (hbound k hmem)

theorem assignedNums_head_eq (ops : List Op) : ∀ (st : Store) (k : Nat) (t : List Nat),
    assignedNums st ops = k :: t → k = st.nextId := by
  induction ops with
  | nil =>
    intro st k t h
    simp [assignedNums] at h
  | cons op ops ih =>
    intro st k t h
    cases op with
    | recordsOp =>
      have hred : assignedNums st (Op.recordsOp :: ops) = assignedNums st ops := by
        simp [assignedNums, stepStore]
      rw [hred] at h
      exact ih st k t h
    | recordOp i =>
      have hred : assignedNums st (Op.recordOp i :: ops) = assignedNums st ops := by
        simp [assignedNums, stepStore]
      rw [hred] at h
      exact ih st k t h
    | updateOp env i n d da =>
      have hred : assignedNums st (Op.updateOp env i n d da :: ops) =
          assignedNums (stepStore st (.updateOp env i n d da)) ops := by
        simp [assignedNums]
      rw [hred] at h
      rw [ih _ k t h]
      exact updateRecord_nextId env st i n d da
    | deleteOp i =>
      have hred : assignedNums st (Op.deleteOp i :: ops) =
          assignedNums (stepStore st (.deleteOp i)) ops := by
        simp [assignedNums]
      rw [hred] at h
      rw [ih _ k t h]
      exact deleteRecord_nextId st i
    | addOp env n d da =>
      cases hres : (addRecord env st n d da).2 with
      | error e =>
        have hst : (addRecord env st n d da).1 = st :=
          addRecord_error_store env st n d da e hres
        have hred : assignedNums st (.addOp env n d da :: ops) = assignedNums st ops := by
          simp [assignedNums, hres]
          rw [show stepStore st (.addOp env n d da) = st from hst]
        rw [hred] at h
        exact ih st k t h
      | ok r =>
        have hred : assignedNums st (.addOp env n d da :: ops) =
            st.nextId :: assignedNums (stepStore st (.addOp env n d da)) ops := by
          simp [assignedNums, hres]
        rw [hred] at h
        injection h with h1 h2
        exact h1.symm

theorem assignedIds_eq_map (ops : List Op) : ∀ st : Store,
    assignedIds st ops = (assignedNums st ops).map toString := by
  induction ops with
  | nil =>
    intro st
    rfl
  | cons op ops ih =>
    intro st
    cases op with
    | recordsOp => simpa [assignedIds, assignedNums, stepStore] using ih st
    | recordOp i => simpa [assignedIds, assignedNums, stepStore] using ih st
    | updateOp env i n d da => simpa [assignedIds, assignedNums] using ih _
    | deleteOp i => simpa [assignedIds, assignedNums] using ih _
    | addOp env n d da =>
      cases hres : (addRecord env st n d da).2 with
      | error e =>
        simpa [assignedIds, assignedNums, hres] using ih _
      | ok r =>
        have hid : r.id = toString st.nextId :=
          (addRecord_ok_shape env st n d da r hres).1
        simp [assignedIds, assignedNums, hres, hid]
        exact ih _

theorem updateRecord_not_found (env : JsDateEnv) (st : Store) (id n d da : JSVal)
    (h : ∀ r ∈ st.recordsData, r.id ≠ jsToString id) :
    updateRecord env st id n d da =
      (st, .error ("Record with id " ++ jsToString id ++ " not found.")) := by
  unfold updateRecord
  rw [(updateList_none_iff _ _ _).mpr h]

theorem updateRecord_found (env : JsDateEnv) (st : Store) (id n d da : JSVal)
    (l1 l2 : List Record) (r : Record)
    (hsplit : st.recordsData = l1 ++ r :: l2)
    (h1 : ∀ r' ∈ l1, r'.id ≠ jsToString id)
    (hr : r.id = jsToString id) :
    updateRecord env st id n d da =
      (⟨l1 ++ (updSteps env r n d da).1 :: l2, st.nextId⟩,
       match (updSteps env r n d da).2 with
       | some e => .error e
       | none => .ok (updSteps env r n d da).1) := by
  unfold updateRecord
  rw [hsplit, updateList_found (jsToString id) _ l1 l2 r h1 hr]

theorem deleteRecord_found (st : Store) (id : JSVal)
    (l1 l2 : List Record) (r : Record)
    (hsplit : st.recordsData = l1 ++ r :: l2)
    (h1 : ∀ r' ∈ l1, r'.id ≠ jsToString id)
    (hr : r.id = jsToString id) :
    deleteRecord st id =
      (⟨l1 ++ l2, st.nextId⟩,
       ⟨true, "Record " ++ jsToString id ++ " deleted successfully.", some r⟩) := by
  unfold deleteRecord
  rw [hsplit, removeFirst_found (jsToString id) l1 l2 r h1 hr]

theorem updateList_some_shape (idStr : String) (upd : Record → Record × Option String)
    (l : List Record) :
    ∀ rs1 rr err, updateList idStr upd l = some (rs1, rr, err) →
    ∃ l1 r l2, l = l1 ++ r :: l2 ∧ (∀ r' ∈ l1, r'.id ≠ idStr) ∧ r.id = idStr ∧
      rs1 = l1 ++ (upd r).1 :: l2 ∧ rr = (upd r).1 ∧ err = (upd r).2 := by
  induction l with
  | nil =>
    intro rs1 rr err h
    simp [updateList_nil] at h
  | cons a as ih =>
    intro rs1 rr err h
    rw [updateList_cons] at h
    by_cases ha : a.id = idStr
    · have hb : (a.id == idStr) = true := by simp [ha]
      rw [hb, if_pos rfl] at h
      injection h with h'
      injection h' with e1 h''
      injection h'' with e2 e3
      exact ⟨[], a, as, by simp, by simp, ha, by simp [e1], e2.symm, e3.symm⟩
    · have hb : (a.id == idStr) = false := by simp [ha]
      rw [hb] at h
      simp only [Bool.false_eq_true, if_false] at h
      cases hrec : updateList idStr upd as with
      | none =>
        rw [hrec] at h
        exact absurd h (by simp)
      | some x =>
        rcases x with ⟨rs1', rr', err'⟩
        rw [hrec] at h
        injection h with h'
        injection h' with e1 h''
        injection h'' with e2 e3
        rcases ih rs1' rr' err' hrec with ⟨l1, r, l2, hsplit, hl1, hr, hrs, hrr, herr⟩
        refine ⟨a :: l1, r, l2, by simp [hsplit], ?_, hr, ?_, ?_, ?_⟩
        · intro r' hr'
          rcases List.mem_cons.mp hr' with rfl | hmem
          · exact ha
          · exact hl1 r' hmem
        · rw [← e1, hrs]
          simp
        · rw [← e2, hrr]
        · rw [← e3, herr]

/-! ### Claims -/

/-- C4: for every id not present in the collection, deleteRecord does not
throw: it returns success=false, removed=null, the message
`Record with id <id> not found.`, and leaves the whole store (collection
and size) unchanged. -/
theorem C4_delete_missing_id (st : Store) (id : JSVal)
    (h : ∀ r ∈ st.recordsData, r.id ≠ jsToString id) :
    deleteRecord st id =
      (st, ⟨false, "Record with id " ++ jsToString id ++ " not found.", none⟩) := by
  unfold deleteRecord
  rw [(removeFirst_none_iff _ _).mpr h]

/-- Witness for C4: deleteRecord with id "999" on the seed store. -/
theorem C4_delete_missing_id_witness :
    deleteRecord initialStore (.str "999") =
      (initialStore, ⟨false, "Record with id 999 not found.", none⟩) := by
  have h := C4_delete_missing_id initialStore (.str "999") (by decide)
  exact h

/-- C5: for every id present in the collection (and not duplicated),
deleteRecord returns success=true with the removed record attached,
removes exactly that record keeping all others in their original order,
the id no longer occurs in subsequent records() results, and the size
decreases by one. -/
theorem C5_delete_existing_id (st : Store) (id : JSVal)
    (l1 l2 : List Record) (r : Record)
    (hsplit : st.recordsData = l1 ++ r :: l2)
    (h1 : ∀ r' ∈ l1, r'.id ≠ jsToString id)
    (hr : r.id = jsToString id)
    (h2 : ∀ r' ∈ l2, r'.id ≠ jsToString id) :
    deleteRecord st id =
      (⟨l1 ++ l2, st.nextId⟩,
       ⟨true, "Record " ++ jsToString id ++ " deleted successfully.", some r⟩) ∧
    recordsQ (deleteRecord st id).1 = l1 ++ l2 ∧
    (∀ r' ∈ recordsQ (deleteRecord st id).1, r'.id ≠ jsToString id) ∧
    (recordsQ (deleteRecord st id).1).length + 1 = (recordsQ st).length := by
  have hmain := deleteRecord_found st id l1 l2 r hsplit h1 hr
  refine ⟨hmain, ?_, ?_, ?_⟩
  · rw [hmain]
    rfl
  · rw [hmain]
    intro r' hr'
    rcases List.mem_append.mp hr' with hm | hm
    · exact h1 r' hm
    · exact h2 r' hm
  · rw [hmain]
    simp [recordsQ, hsplit]
    omega

/-- Witness for C5: deleteRecord with id "5" on the seed store removes
exactly the fifth record and shrinks the collection from 20 to 19. -/
theorem C5_delete_existing_id_witness :
    deleteRecord initialStore (.str "5") =
      (⟨seedRecords.take 4 ++ seedRecords.drop 5, 21⟩,
       ⟨true, "Record 5 deleted successfully.",
        some ⟨"5", "Neha", "Bulging_Eyes", "2025-01-09T12:30:00.000Z"⟩⟩) ∧
    (recordsQ (deleteRecord initialStore (.str "5")).1).length + 1 =
      (recordsQ initialStore).length := by
  have h := C5_delete_existing_id initialStore (.str "5")
      (seedRecords.take 4) (seedRecords.drop 5)
      ⟨"5", "Neha", "Bulging_Eyes", "2025-01-09T12:30:00.000Z"⟩
      (by decide) (by decide) (by decide) (by decide)
  exact ⟨h.1, h.2.2.2⟩

/-- C6: updateRecord changes only the supplied optional fields: with none
supplied it returns the record and the store unchanged; with only name
supplied it writes the trimmed name and leaves disease and dateAdded
untouched; the id of the returned record and the stored ids are never
changed. -/
theorem C6_update_frame (env : JsDateEnv) (st : Store) (id : JSVal)
    (l1 l2 : List Record) (r : Record)
    (hsplit : st.recordsData = l1 ++ r :: l2)
    (h1 : ∀ r' ∈ l1, r'.id ≠ jsToString id)
    (hr : r.id = jsToString id) :
    updateRecord env st id .undefined .undefined .undefined = (st, .ok r) ∧
    (∀ s : String, jsTrim s ≠ "" →
      updateRecord env st id (.str s) .undefined .undefined =
        (⟨l1 ++ { r with name := jsTrim s } :: l2, st.nextId⟩,
         .ok { r with name := jsTrim s })) ∧
    (∀ n d da : JSVal, ∀ r' : Record,
      (updateRecord env st id n d da).2 = .ok r' → r'.id = r.id) ∧
    (∀ n d da : JSVal,
      ((updateRecord env st id n d da).1).recordsData.map Record.id =
        st.recordsData.map Record.id) := by
  refine ⟨?_, ?_, ?_, ?_⟩
  · rw [updateRecord_found env st id .undefined .undefined .undefined l1 l2 r hsplit h1 hr,
      updSteps_all_omitted]
    rw [← hsplit]
  · intro s hs
    rw [updateRecord_found env st id (.str s) .undefined .undefined l1 l2 r hsplit h1 hr,
      updSteps_name_only env r s hs]
  · intro n d da r' hok
    rw [updateRecord_found env st id n d da l1 l2 r hsplit h1 hr] at hok
    cases herr : (updSteps env r n d da).2 with
    | some e =>
      rw [herr] at hok
      exact absurd hok (by simp)
    | none =>
      rw [herr] at hok
      simp only [Except.ok.injEq] at hok
      rw [← hok]
      exact updSteps_id env r n d da
  · intro n d da
    rw [updateRecord_found env st id n d da l1 l2 r hsplit h1 hr, hsplit]
    simp [updSteps_id]

/-- Witness for C6: updating record "3" of the seed with no optional
fields returns it unchanged; with only a name it changes only the
name. -/
theorem C6_update_frame_witness :
    updateRecord testEnv initialStore (.str "3") .undefined .undefined .undefined =
      (initialStore, .ok ⟨"3", "Rahul", "Uveitis", "2025-01-07T14:05:00.000Z"⟩) ∧
    updateRecord testEnv initialStore (.str "3") (.str " Maya ") .undefined .undefined =
      (⟨seedRecords.take 2 ++
          (⟨"3", "Maya", "Uveitis", "2025-01-07T14:05:00.000Z"⟩ : Record) ::
            seedRecords.drop 3, 21⟩,
       .ok ⟨"3", "Maya", "Uveitis", "2025-01-07T14:05:00.000Z"⟩) := by
  have h := C6_update_frame testEnv initialStore (.str "3")
      (seedRecords.take 2) (seedRecords.drop 3)
      ⟨"3", "Rahul", "Uveitis", "2025-01-07T14:05:00.000Z"⟩
      (by decide) (by decide) (by decide)
  refine ⟨h.1, ?_⟩
  have h2 := h.2.1 " Maya " (by decide)
  exact h2

/-- C7: updateRecord throws exactly when the id matches no stored record,
or a supplied name trims to empty, or a supplied disease is not in the
enumeration, or a supplied dateAdded is not a valid date; when it
returns normally the returned record is the mutated record stored under
the requested id. -/
theorem C7_update_error_iff (env : JsDateEnv) (st : Store) (id n d da : JSVal) :
    ((∃ e, (updateRecord env st id n d da).2 = Except.error e) ↔
      (∀ r ∈ st.recordsData, r.id ≠ jsToString id) ∨
      (∃ s, n = JSVal.str s ∧ jsTrim s = "") ∨
      (∃ dd, d = JSVal.str dd ∧ dd ∉ DISEASES) ∨
      (∃ t, da = JSVal.str t ∧ isValidDate env (.str t) = false)) ∧
    (∀ r', (updateRecord env st id n d da).2 = Except.ok r' →
      r' ∈ ((updateRecord env st id n d da).1).recordsData ∧
        r'.id = jsToString id) := by
  cases hul : updateList (jsToString id) (fun r => updSteps env r n d da) st.recordsData with
  | none =>
    have hnone := (updateList_none_iff _ _ _).mp hul
    have heq : updateRecord env st id n d da =
        (st, .error ("Record with id " ++ jsToString id ++ " not found.")) := by
      unfold updateRecord
      rw [hul]
    constructor
    · rw [heq]
      exact ⟨fun _ => Or.inl hnone, fun _ => ⟨_, rfl⟩⟩
    · intro r' hok
      rw [heq] at hok
      exact absurd hok (by simp)
  | some x =>
    rcases x with ⟨rs1, rr, err⟩
    rcases updateList_some_shape _ _ _ _ _ _ hul with
      ⟨l1, r, l2, hsplit, hl1, hrid, hrs, hrr, herr⟩
    have heq := updateRecord_found env st id n d da l1 l2 r hsplit hl1 hrid
    constructor
    · constructor
      · rintro ⟨e, he⟩
        rw [heq] at he
        cases hsteps : (updSteps env r n d da).2 with
        | none =>
          rw [hsteps] at he
          exact absurd he (by simp)
        | some e' =>
          have : (updSteps env r n d da).2 ≠ none := by simp [hsteps]
          exact Or.inr ((updSteps_err_iff env r n d da).mp this)
      · rintro (hmiss | hbad)
        · exact absurd hrid (hmiss r (by simp [hsplit]))
        · have : (updSteps env r n d da).2 ≠ none :=
            (updSteps_err_iff env r n d da).mpr hbad
          cases hsteps : (updSteps env r n d da).2 with
          | none => exact absurd hsteps this
          | some e =>
            refine ⟨e, ?_⟩
            rw [heq, hsteps]
    · intro r' hok
      rw [heq] at hok ⊢
      cases hsteps : (updSteps env r n d da).2 with
      | some e =>
        rw [hsteps] at hok
        exact absurd hok (by simp)
      | none =>
        rw [hsteps] at hok
        simp only [Except.ok.injEq] at hok
        subst hok
        constructor
        · simp
        · rw [updSteps_id env r n d da]
          exact hrid

/-- Witness for C7: updating the missing id "999" on the seed throws,
and a fully valid update of record "5" returns the mutated record. -/
theorem C7_update_error_iff_witness :
    (∃ e, (updateRecord testEnv initialStore (.str "999") .undefined .undefined
        .undefined).2 = Except.error e) ∧
    (∀ r', (updateRecord testEnv initialStore (.str "5") .undefined
        (.str "Uveitis") .undefined).2 = Except.ok r' →
      r'.id = "5") := by
  constructor
  · exact (C7_update_error_iff testEnv initialStore (.str "999") .undefined .undefined
      .undefined).1.mpr (Or.inl (by decide))
  · intro r' hok
    exact ((C7_update_error_iff testEnv initialStore (.str "5") .undefined
      (.str "Uveitis") .undefined).2 r' hok).2

/-- C8: addRecord fails with "Name is required." when the name is absent
or trims to empty; fails with the message listing all five diseases when
the supplied disease is not one of them; and on valid inputs appends a
record whose name is the trimmed input name. -/
theorem C8_add_validation (env : JsDateEnv) (st : Store) (n d da : JSVal) :
    ((n = .undefined ∨ n = .null ∨ ∃ s, n = JSVal.str s ∧ jsTrim s = "") →
      addRecord env st n d da = (st, .error "Name is required.")) ∧
    (∀ s, n = JSVal.str s → jsTrim s ≠ "" → (¬ ∃ dd, d = JSVal.str dd ∧ dd ∈ DISEASES) →
      addRecord env st n d da = (st, .error diseaseErrMsg)) ∧
    diseaseErrMsg =
      "Disease must be one of: Bulging_Eyes, Cataracts, Crossed_Eyes, Glaucoma, Uveitis" ∧
    (∀ s dd, n = JSVal.str s → jsTrim s ≠ "" → d = JSVal.str dd → dd ∈ DISEASES →
      (addRecord env st n d da).2 = .ok ⟨toString st.nextId, jsTrim s, dd, addDate env da⟩ ∧
      (addRecord env st n d da).1.recordsData =
        st.recordsData ++ [⟨toString st.nextId, jsTrim s, dd, addDate env da⟩]) := by
  refine ⟨?_, ?_, by rfl, ?_⟩
  · rintro (rfl | rfl | ⟨s, rfl, hs⟩)
    · simp [addRecord, JSVal.truthy]
    · simp [addRecord, JSVal.truthy]
    · simp [addRecord, hs]
  · rintro s rfl hs hnd
    cases d with
    | str dd =>
      have hdd : dd ∉ DISEASES := fun hmem => hnd ⟨dd, rfl, hmem⟩
      have hc : DISEASES.contains dd = false := by simp [List.elem_iff, hdd]
      simp [addRecord, hs, hc, hdd]
    | undefined => simp [addRecord, hs]
    | null => simp [addRecord, hs]
    | bool b => simp [addRecord, hs]
    | num m => simp [addRecord, hs]
  · rintro s dd rfl hs rfl hdd
    rw [addRecord_ok env st s dd da hs hdd]
    exact ⟨rfl, rfl⟩

/-- Witness for C8: an invalid disease is rejected with the full
enumeration in the message, and a valid call appends the trimmed
name. -/
theorem C8_add_validation_witness :
    addRecord testEnv initialStore (.str "Test") (.str "InvalidDisease") .undefined =
      (initialStore,
       .error "Disease must be one of: Bulging_Eyes, Cataracts, Crossed_Eyes, Glaucoma, Uveitis") ∧
    (addRecord testEnv initialStore (.str "  Zoe ") (.str "Glaucoma") .undefined).2 =
      .ok ⟨"21", "Zoe", "Glaucoma", "2025-03-03T00:00:00.000Z"⟩ := by
  have h := C8_add_validation testEnv initialStore (.str "Test") (.str "InvalidDisease")
      .undefined
  have h2 := C8_add_validation testEnv initialStore (.str "  Zoe ") (.str "Glaucoma")
      .undefined
  constructor
  · have hbad := h.2.1 "Test" rfl (by decide)
      (by rintro ⟨dd, heq, hmem⟩; injection heq with heq'; subst heq'; exact absurd hmem (by decide))
    rw [hbad, h.2.2.1]
  · have hok := (h2.2.2.2 "  Zoe " "Glaucoma" rfl (by decide) rfl (by decide)).1
    exact hok

/-- C9: record, updateRecord and deleteRecord coerce the input id to its
string representation before comparison, so a numeric id behaves exactly
like its decimal string; a successful record lookup with a numeric id
returns the record whose id is that decimal string; and the record query
returns null (not an error) when no id matches. -/
theorem C9_id_coercion (env : JsDateEnv) (st : Store) (i : Int) (id n d da : JSVal) :
    recordQ st (.num i) = recordQ st (.str (toString i)) ∧
    deleteRecord st (.num i) = deleteRecord st (.str (toString i)) ∧
    updateRecord env st (.num i) n d da =
      updateRecord env st (.str (toString i)) n d da ∧
    (∀ r : Record, recordQ st (.num i) = some r → r.id = toString i) ∧
    ((∀ r ∈ st.recordsData, r.id ≠ jsToString id) → recordQ st id = none) := by
  refine ⟨rfl, rfl, rfl, ?_, ?_⟩
  · intro r h
    have hp := List.find?_some h
    simpa [jsToString] using hp
  · intro h
    apply List.find?_eq_none.mpr
    intro r hr
    simpa using h r hr

/-- Witness for C9: the numeric id 5 finds seed record "5", and a missing
id yields null. -/
theorem C9_id_coercion_witness :
    recordQ initialStore (.num 5) = recordQ initialStore (.str "5") ∧
    (∀ r : Record, recordQ initialStore (.num 5) = some r → r.id = "5") ∧
    recordQ initialStore (.str "999") = none := by
  have h := C9_id_coercion testEnv initialStore 5 (.str "999") .undefined .undefined
      .undefined
  exact ⟨h.1, fun r hr => h.2.2.2.1 r hr, h.2.2.2.2 (by decide)⟩

/-- C10: updateRecord treats a non-string optional field (null,
a boolean, or a number, as well as undefined) exactly like an omitted
field: the call's outcome is identical to the call with the field
omitted. -/
theorem C10_nonstring_like_omitted (env : JsDateEnv) (st : Store) (id n d da : JSVal) :
    (n.isStr = false →
      updateRecord env st id n d da = updateRecord env st id .undefined d da) ∧
    (d.isStr = false →
      updateRecord env st id n d da = updateRecord env st id n .undefined da) ∧
    (da.isStr = false →
      updateRecord env st id n d da = updateRecord env st id n d .undefined) := by
  refine ⟨?_, ?_, ?_⟩
  · intro h
    unfold updateRecord
    rw [updateList_congr (jsToString id) (fun r => updSteps env r n d da)
      (fun r => updSteps env r .undefined d da)
      (fun r => by simp only [updSteps]; rw [updName_nonstr n r h]; rfl) st.recordsData]
  · intro h
    unfold updateRecord
    rw [updateList_congr (jsToString id) (fun r => updSteps env r n d da)
      (fun r => updSteps env r n .undefined da)
      (fun r => ?_) st.recordsData]
    simp only [updSteps]
    rcases hn : updName n r with ⟨r1, e1⟩
    cases e1 with
    | some e => rfl
    | none =>
      rw [andThen_none, andThen_none, updDisease_nonstr d r1 h]
      rfl
  · intro h
    unfold updateRecord
    rw [updateList_congr (jsToString id) (fun r => updSteps env r n d da)
      (fun r => updSteps env r n d .undefined)
      (fun r => ?_) st.recordsData]
    simp only [updSteps]
    rcases hn : updName n r with ⟨r1, e1⟩
    cases e1 with
    | some e => rfl
    | none =>
      rw [andThen_none]
      rcases hd : updDisease d r1 with ⟨r2, e2⟩
      cases e2 with
      | some e => rfl
      | none =>
        rw [andThen_none, andThen_none, updDate_nonstr env da r2 h]
        rfl

/-- Witness for C10: passing null for name behaves exactly like omitting
it. -/
theorem C10_nonstring_like_omitted_witness :
    updateRecord testEnv initialStore (.str "3") .null (.str "Glaucoma") .undefined =
      updateRecord testEnv initialStore (.str "3") .undefined (.str "Glaucoma")
        .undefined := by
  exact (C10_nonstring_like_omitted testEnv initialStore (.str "3") .null
    (.str "Glaucoma") .undefined).1 (by decide)

/-- Counterexample to C1: updateRecord on existing id "1" with a valid
name and an invalid disease throws, yet the store is left mutated (the
name write persisted), contradicting the claim that a throwing resolver
leaves the Record Store exactly as it was. -/
theorem C1_counterexample :
    (∃ e, (updateRecord testEnv initialStore (.str "1") (.str "Bob")
        (.str "NopeDisease") .undefined).2 = Except.error e) ∧
    (updateRecord testEnv initialStore (.str "1") (.str "Bob")
        (.str "NopeDisease") .undefined).1 ≠ initialStore := by
  exact ⟨⟨diseaseErrMsg, by rfl⟩, by decide⟩

/-- Claim C1 as amended: addRecord leaves the store unchanged whenever it
throws; deleteRecord never throws, and leaves the store unchanged when
it reports failure; updateRecord leaves the store unchanged when the id
is unknown or when the supplied name is invalid; but when a valid
supplied name precedes an invalid supplied disease, updateRecord writes
the trimmed name into the stored record and then throws. -/
theorem C1_amended_atomicity (env : JsDateEnv) (st : Store) (id n d da : JSVal) :
    (∀ e, (addRecord env st n d da).2 = Except.error e →
      (addRecord env st n d da).1 = st) ∧
    ((deleteRecord st id).2.success = false → (deleteRecord st id).1 = st) ∧
    ((∀ r ∈ st.recordsData, r.id ≠ jsToString id) →
      (updateRecord env st id n d da).1 = st) ∧
    (∀ s, n = JSVal.str s → jsTrim s = "" →
      (updateRecord env st id n d da).1 = st) ∧
    (∀ l1 r l2 s dd, st.recordsData = l1 ++ r :: l2 →
      (∀ r' ∈ l1, r'.id ≠ jsToString id) → r.id = jsToString id →
      n = JSVal.str s → jsTrim s ≠ "" → d = JSVal.str dd → dd ∉ DISEASES →
      updateRecord env st id n d da =
        (⟨l1 ++ { r with name := jsTrim s } :: l2, st.nextId⟩,
         Except.error diseaseErrMsg)) := by
  refine ⟨?_, ?_, ?_, ?_, ?_⟩
  · exact fun e he => addRecord_error_store env st n d da e he
  · intro hfail
    unfold deleteRecord at hfail ⊢
    cases hrf : removeFirst (jsToString id) st.recordsData with
    | none => rfl
    | some x =>
      rcases x with ⟨rem, rest⟩
      rw [hrf] at hfail
      simp at hfail
  · intro h
    rw [updateRecord_not_found env st id n d da h]
  · rintro s rfl hs
    cases hul : updateList (jsToString id) (fun r => updSteps env r (.str s) d da)
        st.recordsData with
    | none =>
      unfold updateRecord
      rw [hul]
    | some x =>
      rcases x with ⟨rs1, rr, err⟩
      rcases updateList_some_shape _ _ _ _ _ _ hul with
        ⟨l1, r, l2, hsplit, hl1, hrid, hrs, hrr, herr⟩
      unfold updateRecord
      rw [hul]
      simp only [updSteps_name_bad env r s d da hs] at hrs
      show (⟨rs1, st.nextId⟩ : Store) = st
      rw [hrs, ← hsplit]
  · rintro l1 r l2 s dd hsplit hl1 hrid rfl hs rfl hdd
    rw [updateRecord_found env st id (.str s) (.str dd) da l1 l2 r hsplit hl1 hrid,
      updSteps_name_disease_bad env r s dd da hs hdd]

/-- Witness for the amended C1: concrete instances of the atomic delete
and update paths, and of the partial-mutation path on id "1". -/
theorem C1_amended_atomicity_witness :
    (deleteRecord initialStore (.str "999")).1 = initialStore ∧
    (updateRecord testEnv initialStore (.str "999") .undefined .undefined
      .undefined).1 = initialStore ∧
    updateRecord testEnv initialStore (.str "1") (.str "Bob") (.str "NopeDisease")
        .undefined =
      (⟨⟨"1", "Bob", "Cataracts", "2025-01-05T09:10:00.000Z"⟩ :: seedRecords.tail, 21⟩,
       Except.error diseaseErrMsg) := by
  refine ⟨?_, ?_, ?_⟩
  · exact (C1_amended_atomicity testEnv initialStore (.str "999") .undefined .undefined
      .undefined).2.1 (by decide)
  · exact (C1_amended_atomicity testEnv initialStore (.str "999") .undefined .undefined
      .undefined).2.2.1 (by decide)
  · exact (C1_amended_atomicity testEnv initialStore (.str "1") (.str "Bob")
      (.str "NopeDisease") .undefined).2.2.2.2 []
      ⟨"1", "Aarav", "Cataracts", "2025-01-05T09:10:00.000Z"⟩ seedRecords.tail
      "Bob" "NopeDisease" rfl (by simp) rfl rfl (by decide) rfl (by decide)

/-- Claim C2: addRecord with a valid name and disease and an unparseable
supplied dateAdded string succeeds and stores the current nowISO instant
instead of the supplied value, while updateRecord on an existing id with
an unparseable supplied dateAdded throws the date validation error. -/
theorem C2_invalid_date_asymmetry (env : JsDateEnv) (st : Store) (s d t : String)
    (id : JSVal) (l1 l2 : List Record) (r : Record)
    (hs : jsTrim s ≠ "") (hd : d ∈ DISEASES)
    (ht : isValidDate env (.str t) = false) :
    ((addRecord env st (.str s) (.str d) (.str t)).2 =
        .ok ⟨toString st.nextId, jsTrim s, d, env.nowISO⟩ ∧
      (addRecord env st (.str s) (.str d) (.str t)).1.recordsData =
        st.recordsData ++ [⟨toString st.nextId, jsTrim s, d, env.nowISO⟩]) ∧
    (st.recordsData = l1 ++ r :: l2 → (∀ r' ∈ l1, r'.id ≠ jsToString id) →
      r.id = jsToString id →
      (updateRecord env st id .undefined .undefined (.str t)).2 =
        Except.error "dateAdded must be a valid ISO date/time.") := by
  have hdate : addDate env (.str t) = env.nowISO := by
    simp [addDate, ht]
  constructor
  · rw [addRecord_ok env st s d (.str t) hs hd, hdate]
    exact ⟨rfl, rfl⟩
  · intro hsplit h1 hr
    rw [updateRecord_found env st id .undefined .undefined (.str t) l1 l2 r hsplit h1 hr]
    simp [updSteps, andThen, updName, updDisease, updDate, ht]

/-- Witness for C2: an unparseable date in addRecord falls back to the
current instant; the same date string makes updateRecord throw. -/
theorem C2_invalid_date_asymmetry_witness :
    (addRecord testEnv initialStore (.str "Test") (.str "Glaucoma") (.str "garbage")).2 =
      .ok ⟨"21", "Test", "Glaucoma", "2025-03-03T00:00:00.000Z"⟩ ∧
    (updateRecord testEnv initialStore (.str "5") .undefined .undefined
        (.str "garbage")).2 =
      Except.error "dateAdded must be a valid ISO date/time." := by
  have h := C2_invalid_date_asymmetry testEnv initialStore "Test" "Glaucoma" "garbage"
      (.str "5") (seedRecords.take 4) (seedRecords.drop 5)
      ⟨"5", "Neha", "Bulging_Eyes", "2025-01-09T12:30:00.000Z"⟩
      (by decide) (by decide) (by decide)
  exact ⟨h.1.1, h.2 (by decide) (by decide) (by decide)⟩

/-- Claim C3: over any operation sequence from the seed store, the
numeric ids consumed by successful addRecord calls are strictly
increasing in assignment order (hence unique and never reused, even
after deletes), each is at least 21, the returned id strings are their
decimal representations, and the first successful add is assigned
id "21". -/
theorem C3_monotone_ids (ops : List Op) :
    List.Pairwise (· < ·) (assignedNums initialStore ops) ∧
    assignedIds initialStore ops = (assignedNums initialStore ops).map toString ∧
    (∀ k ∈ assignedNums initialStore ops, 21 ≤ k) ∧
    (assignedIds initialStore ops = [] ∨
      ∃ t, assignedIds initialStore ops = "21" :: t) := by
  have hsb := assignedNums_sorted_bound ops initialStore
  refine ⟨hsb.1, assignedIds_eq_map ops initialStore, hsb.2, ?_⟩
  cases hnums : assignedNums initialStore ops with
  | nil =>
    left
    rw [assignedIds_eq_map ops initialStore, hnums]
    rfl
  | cons k t =>
    right
    have hk := assignedNums_head_eq ops initialStore k t hnums
    refine ⟨t.map toString, ?_⟩
    rw [assignedIds_eq_map ops initialStore, hnums, hk]
    rfl

/-- Witness for C3: two adds around a delete of the newly added record
still assign the fresh, strictly larger ids "21" then "22". -/
theorem C3_monotone_ids_witness :
    assignedIds initialStore
        [Op.addOp testEnv (.str "Test") (.str "Glaucoma") .undefined,
         Op.deleteOp (.str "21"),
         Op.addOp testEnv (.str "More") (.str "Uveitis") .undefined] =
      ["21", "22"] ∧
    List.Pairwise (· < ·)
      (assignedNums initialStore
        [Op.addOp testEnv (.str "Test") (.str "Glaucoma") .undefined,
         Op.deleteOp (.str "21"),
         Op.addOp testEnv (.str "More") (.str "Uveitis") .undefined]) ∧
    21 ≤ 21 := by
  have h := C3_monotone_ids
    [Op.addOp testEnv (.str "Test") (.str "Glaucoma") .undefined,
     Op.deleteOp (.str "21"),
     Op.addOp testEnv (.str "More") (.str "Uveitis") .undefined]
  refine ⟨by decide, h.1, ?_⟩
  exact h.2.2.1 21 (by decide)
